import Mathlib

/-!
Verification development for libdeda's pattern handler
(src/libdeda/pattern_handler.py): tracking-dot-matrix pattern validation,
field decoding/encoding, the transformation (alignment) search and the
anonymisation masks, shallowly embedded in Lean.

Grids are embedded as total functions from (row, column) to cell values;
the source works on numpy uint8 arrays whose live cells are 0 or 1.
-/

def Grid : Type := ℕ → ℕ → ℕ

def zeroGrid : Grid := fun _ _ => 0

/-- Cellwise logical OR of a grid and a mask, as performed by
TDM.createMask: np.array((aligned + mask) > 0, dtype=uint8). -/
def orGrid (g m : Grid) : Grid := fun x y => if 0 < g x y + m x y then 1 else 0

/- Decimal-digit helpers modelling Python's string handling in Pattern4
(str.isdigit, int(...), "%02d" % n). Only ASCII digits occur. -/

def digitChar (n : ℕ) : Char := Char.ofNat (48 + n)

def charVal (c : Char) : ℕ := c.toNat - 48

def charIsDigit (c : Char) : Bool := 48 ≤ c.toNat && c.toNat ≤ 57

/-- Python str.isdigit: nonempty and all digits. -/
def isDigitStr (s : List Char) : Bool := !s.isEmpty && s.all charIsDigit

/-- Python int() applied to a digit string. -/
def strToNat (s : List Char) : ℕ := s.foldl (fun a c => 10 * a + charVal c) 0

/-- Decimal rendering of n, sufficient for n < 1000 (cell values are uint8
and decoded 7-bit field values never exceed 127). -/
def natToDec (n : ℕ) : List Char :=
  if n < 10 then [digitChar n]
  else if n < 100 then [digitChar (n / 10), digitChar (n % 10)]
  else [digitChar (n / 100), digitChar (n / 10 % 10), digitChar (n % 10)]

/-- Python "%02d" % n : zero-pad to at least two decimal digits. -/
def pad2 (n : ℕ) : List Char := if n < 10 then '0' :: natToDec n else natToDec n

/-- Bit j of v (big-endian binary writing as produced by bin(v)). -/
def nbit (j v : ℕ) : ℕ := v / 2 ^ j % 2

namespace Pattern4

/- Pattern4: n_i = 16, n_j = 32, prototype 8 x 16, repetitions [(8,16)],
no markers, codebits (x, y) for x < 8, 1 <= y <= 15. -/

/-- The format table mapping field names to the column indices ("rows" in
the source's vocabulary) that store them. -/
def format : String → Option (List ℕ) := fun name =>
  match name with
  | "minutes" => some [14]
  | "hour" => some [11]
  | "day" => some [10]
  | "month" => some [9]
  | "year" => some [8]
  | "serial" => some [3, 4, 5]
  | "unknown1" => some [13]
  | "manufacturer" => some [12]
  | "unknown3" => some [7]
  | "unknown4" => some [2]
  | "unknown5" => some [1]
  | "printer" => some [2, 3, 4, 5]
  | "raw" => some [1, 2, 3, 4, 5, 6, 7, 8, 9, 10, 11, 12, 13, 14]
  | _ => none

/-- The manufacturers table {0: Xerox, 3: Epson, 20: Dell, 4: Xerox}. -/
def manufacturerName : ℕ → Option String := fun n =>
  match n with
  | 0 => some "Xerox"
  | 3 => some "Epson"
  | 20 => some "Dell"
  | 4 => some "Xerox"
  | _ => none

/-- Column sum over the 8 prototype rows (np.sum(m, axis=0) on the 8x15
data slice, for one column). -/
def colSum8 (g : Grid) (y : ℕ) : ℕ := ((List.range 8).map fun x => g x y).sum

/-- Row sum over data columns 1..15 (np.sum(m[1:,:], axis=1)). -/
def rowSum15 (g : Grid) (x : ℕ) : ℕ := ((List.range 15).map fun k => g x (k + 1)).sum

/-- Row sum over columns 1..14 (np.sum(aligned[:,1:15], axis=1)). -/
def rowSum14 (g : Grid) (x : ℕ) : ℕ := ((List.range 14).map fun k => g x (k + 1)).sum

/-- Pattern4.check on the aligned 8x16 prototype: on m = aligned[0:8,1:16],
every column sum of m[:,:14] is odd, every row sum of m[1:,:] is odd, and
the reserved regions m[1:4,8] and m[1:3,9:11] are empty. -/
def check (g : Grid) : Bool :=
  ((List.range 14).all fun k => colSum8 g (k + 1) % 2 == 1) &&
  ((List.range 7).all fun k => rowSum15 g (k + 1) % 2 == 1) &&
  (g 1 9 + g 2 9 + g 3 9 == 0) &&
  (g 1 10 + g 1 11 + g 2 10 + g 2 11 == 0)

/-- The 8-entry column vector written for a two-digit value v: bin(v)
left-padded with zeros to 8 bits, whose top entry (index 0) is then
overwritten with the parity bit making the column sum odd. -/
def valbin (v x : ℕ) : ℕ :=
  if x = 0 then 1 - (((List.range 8).map fun j => nbit j v).sum) % 2
  else nbit (7 - x) v

/-- aligned[:, row] = valbin (one column assignment of __setitem__). -/
def writeCol (g : Grid) (row v : ℕ) : Grid :=
  fun x y => if x < 8 ∧ y = row then valbin v x else g x y

/-- aligned[:,15] = 1 - np.sum(aligned[:,1:15], axis=1) % 2 (the row-parity
column recomputed at the end of __setitem__). -/
def colParityFix (g : Grid) : Grid :=
  fun x y => if x < 8 ∧ y = 15 then 1 - rowSum14 g x % 2 else g x y

/-- aligned[0,15] = 1 - np.sum(aligned[1:8,15]) % 2. -/
def cell015Fix (g : Grid) : Grid :=
  fun x y =>
    if x = 0 ∧ y = 15 then 1 - (((List.range 7).map fun k => g (k + 1) 15).sum) % 2
    else g x y

inductive SetErr where
  | nameErr
  | assertErr
  | keyErr
deriving DecidableEq

/-- Pattern4.__setitem__. The value is a Python string (digits, possibly
with dashes for the serial field). Failure modes: .nameErr models the
NameError raised at line 506, where the non-digit manufacturer branch reads
the undefined global name `manufacturers` (the class attribute is only
reachable as self.manufacturers), so the intended KeyError is unreachable;
.assertErr models a failed assert; .keyErr models the KeyError of an
unknown field name in self.format[name]. -/
def setitem (g : Grid) (name : String) (value : List Char) : Except SetErr Grid :=
  let value := if name = "serial" then value.filter (fun c => c ≠ '-') else value
  if name = "manufacturer" ∧ ¬ isDigitStr value then Except.error SetErr.nameErr
  else if ¬ isDigitStr value then Except.error SetErr.assertErr
  else
    match format name with
    | none => Except.error SetErr.keyErr
    | some rows =>
      let value := if value.length % 2 ≠ 0 then '0' :: value else value
      if value.length ≠ 2 * rows.length then Except.error SetErr.assertErr
      else
        -- for i in range(len(rows)): v = value[i:i+2]; row = rows[i]; write
        let g' := (List.range rows.length).foldl
          (fun h i => writeCol h (rows.getD i 0) (strToNat ((value.drop i).take 2))) g
        Except.ok (cell015Fix (colParityFix g'))

/-- The 7-bit big-endian number stored in rows 1..7 of one column:
int(array2str(self.aligned[1:, row]), 2). -/
def getColNum (g : Grid) (row : ℕ) : ℕ :=
  ((List.range 7).map fun k => g (k + 1) row * 2 ^ (6 - k)).sum

/-- "".join("%02d" % int(column bits, 2) for row in rows). -/
def rawDecoded (g : Grid) (rows : List ℕ) : List Char :=
  rows.flatMap fun r => pad2 (getColNum g r)

/-- Pattern4.__getitem__. Outer none = unknown field name (KeyError);
inner none = Python None (serial of a Dell grid). -/
def getitem (g : Grid) (name : String) : Option (Option (List Char)) :=
  match format name with
  | none => none
  | some rows =>
    let decoded := rawDecoded g rows
    if name = "manufacturer" then
      -- decoded.isdigit() always holds here; unknown codes give the guess
      some (some ((match manufacturerName (strToNat decoded) with
        | some s => s
        | none => "Xerox/Dell/Epson").toList))
    else if name = "serial" then
      match manufacturerName (strToNat (rawDecoded g [12])) with
      | some s => if s = "Dell" then some none else some (some (('-' :: decoded) ++ ['-']))
      | none => some (some (('-' :: decoded) ++ ['-']))
    else some (some decoded)

/-- Extract the error of a setitem result, for decidable statements. -/
def errOf (e : Except SetErr Grid) : Option SetErr :=
  match e with
  | Except.error s => some s
  | Except.ok _ => none

/-- int(self[name]) for a single-row numeric field. -/
def fieldNum (g : Grid) (row : ℕ) : ℕ := strToNat (pad2 (getColNum g row))

/-- Days per month, as enforced by datetime.datetime. -/
def daysIn (y m : ℕ) : ℕ :=
  if m = 2 then (if (y % 4 = 0 ∧ y % 100 ≠ 0) ∨ y % 400 = 0 then 29 else 28)
  else if m = 4 ∨ m = 6 ∨ m = 9 ∨ m = 11 then 30
  else 31

structure DT where
  year : ℕ
  month : ℕ
  day : ℕ
  hour : ℕ
  minute : ℕ
deriving DecidableEq

/-- centuries[np.argmin(np.abs(centuries + year - 2018))] with
centuries = [2000, 1900]; argmin takes the first index on ties. -/
def century (y : ℕ) : ℕ :=
  if ((2000 : ℤ) + y - 2018).natAbs ≤ ((1900 : ℤ) + y - 2018).natAbs then 2000 else 1900

/-- The timestamp entry of Pattern4.decode: datetime.datetime(century +
year, month, day, hour, minutes), none when out of calendar range (the
ValueError of datetime). -/
def decodeTimestamp (g : Grid) : Option DT :=
  let y := fieldNum g 8
  let mo := fieldNum g 9
  let d := fieldNum g 10
  let h := fieldNum g 11
  let mi := fieldNum g 14
  let yy := century y + y
  if 1 ≤ mo ∧ mo ≤ 12 ∧ 1 ≤ d ∧ d ≤ daysIn yy mo ∧ h ≤ 23 ∧ mi ≤ 59 ∧ 1 ≤ yy ∧ yy ≤ 9999
  then some ⟨yy, mo, d, h, mi⟩
  else none

/-- The single-row fields whose get returns the plain digits (every
format entry except the multi-row fields and the special-cased
manufacturer), with their column indices. -/
def plainFields : List (String × ℕ) :=
  [("minutes", 14), ("hour", 11), ("day", 10), ("month", 9), ("year", 8),
   ("unknown1", 13), ("unknown3", 7), ("unknown4", 2), ("unknown5", 1)]

/-- The value keeps check()'s reserved cells zero: month (column 9) needs
its three top data bits clear, day and hour (columns 10 and 11) their two. -/
def reservedOK (row v : ℕ) : Prop :=
  (row = 9 → v < 16) ∧ ((row = 10 ∨ row = 11) → v < 32)

end Pattern4

namespace Pattern1

/- _Pattern1: n_i = n_j = 32, prototype 16 x 16, repetition (16,16),
markers (0,0),(1,0), explicit rotations [0,3], no flip, no upside-down.
The data densities are s = 2 (Pattern1s2) and s = 3 (Pattern1s3). -/

/-- C = range(s, 16, 2). -/
def Cs (s : ℕ) : List ℕ := List.range' s ((16 - s + 1) / 2) 2

/-- R = range(1, 16, 2). -/
def R : List ℕ := List.range' 1 8 2

/-- codebits = [(c, r) for c in C for r in R]. -/
def codebits (s : ℕ) : List (ℕ × ℕ) := (Cs s).flatMap fun c => R.map fun r => (c, r)

/-- np.sum(m) over the 7 x 8 codebit matrix. -/
def codeSum (s : ℕ) (g : Grid) : ℕ := ((codebits s).map fun cr => g cr.1 cr.2).sum

/-- One column of np.sum(m, axis=0): the dot count of column group r. -/
def colSum (s : ℕ) (g : Grid) (r : ℕ) : ℕ := ((Cs s).map fun c => g c r).sum

/-- _Pattern1.check: total dot count > 3 and every column group's dot
count even. -/
def check (s : ℕ) (g : Grid) : Bool :=
  decide (3 < codeSum s g) && (R.all fun r => colSum s g r % 2 == 0)

/-- amountNewDots = 3 if np.sum(m[C,r]) == 0 else 1. -/
def amountNew (s : ℕ) (g : Grid) (r : ℕ) : ℕ := if colSum s g r = 0 then 3 else 1

/-- C_empty = [c for c in C if m[c,r] == 0]. -/
def emptyCols (s : ℕ) (g : Grid) (r : ℕ) : List ℕ := (Cs s).filter fun c => g c r == 0

/-- _Pattern1.createMask (default allOnes=False path): for each r in R,
sample amountNew distinct cells from the empty candidates of column group
r and set them in the mask. The source's loop writes a disjoint column of
the mask per iteration, giving this cellwise form; random.sample is
modelled by the caller-supplied pick function. -/
def createMask (s : ℕ) (pick : List ℕ → ℕ → List ℕ) (g : Grid) : Grid :=
  fun x y => if y ∈ R ∧ x ∈ pick (emptyCols s g y) (amountNew s g y) then 1 else 0

/-- Contract of random.sample(population, k): the result is a duplicate-free
selection from the population of exactly the requested size whenever the
request is satisfiable (Python raises ValueError otherwise). -/
def IsSample (pick : List ℕ → ℕ → List ℕ) : Prop :=
  (∀ l n, ∀ x ∈ pick l n, x ∈ l) ∧
  (∀ l n, l.Nodup → n ≤ l.length → (pick l n).length = n ∧ (pick l n).Nodup)

end Pattern1

namespace Pattern3

/- Pattern3: n_i = 24, n_j = 48, prototype 24 x 16, repetitions
(8,16),(16,32), markers (0,4),(0,1),(2,1), no empty cells. -/

/-- blocks = [[((bx*4+by+x)%24, (3*by+1+y)%16) for y in range(3) for x in
range(2)] for by in range(5) for bx in range(6) if bx+by>=2]. -/
def blocks : List (List (ℕ × ℕ)) :=
  (List.range 5).flatMap fun b =>
    (List.range 6).filterMap fun a =>
      if 2 ≤ a + b then
        some ((List.range 3).flatMap fun y => (List.range 2).map fun x =>
          ((a * 4 + b + x) % 24, (3 * b + 1 + y) % 16))
      else none

/-- np.sum(aligned[:,0:16]): the dot count of the 24 x 16 prototype (the
first third of the 3x-repeated full grid). -/
def totalSum (g : Grid) : ℕ :=
  ((List.range 24).flatMap fun x => (List.range 16).map fun y => g x y).sum

def blockSum (g : Grid) (b : List (ℕ × ℕ)) : ℕ := (b.map fun c => g c.1 c.2).sum

/-- Pattern3.check: 30 dots in the prototype, then every block sums to 1. -/
def check (g : Grid) : Bool :=
  if totalSum g ≠ 30 then false
  else blocks.all fun b => blockSum g b == 1

/-- Pattern3.createMaskStrategic: for each block, one random cell among the
block's cells that are empty in the source grid is set. The blocks are
pairwise disjoint, giving this cellwise form; random.choice is modelled by
the caller-supplied pick function (on an empty candidate list the source
raises IndexError). -/
def createMaskStrategic (pick : List (ℕ × ℕ) → ℕ × ℕ) (g : Grid) : Grid :=
  fun x y =>
    if blocks.any fun b => pick (b.filter fun c => g c.1 c.2 == 0) == (x, y) then 1 else 0

end Pattern3

/- The transformation (alignment) search of _PatternAligningMixin, over
the five concrete pattern variants. -/

/-- The per-variant data of an _AbstractPattern subclass, as used by the
search: raw grid size n_i x n_j, prototype size, marker/empty/codebit cell
lists, the search flags, the optional explicit rotation list (the rot
class attribute) and the checkUnaligned pre-filter. -/
structure PatternDef where
  n_i : ℕ
  n_j : ℕ
  protoRows : ℕ
  protoCols : ℕ
  markers : List (ℕ × ℕ)
  emptyCells : List (ℕ × ℕ)
  codebits : List (ℕ × ℕ)
  allowFlip : Bool
  allowRotation : Bool
  allowUpsideDown : Bool
  explicitRot : Option (List ℕ)
  checkUnalignedFn : (ℕ → ℕ → ℕ) → ℕ → ℕ → Bool

/-- An unaligned raw matrix with its shape. -/
structure RawMat where
  rows : ℕ
  cols : ℕ
  val : ℕ → ℕ → ℕ

/-- np.fliplr. -/
def RawMat.fliplr (M : RawMat) : RawMat :=
  ⟨M.rows, M.cols, fun i j => M.val i (M.cols - 1 - j)⟩

/-- np.rot90 (one counterclockwise quarter turn; np.rot90(m, k) is k
applications). -/
def RawMat.rot90 (M : RawMat) : RawMat :=
  ⟨M.cols, M.rows, fun i j => M.val j (M.cols - 1 - i)⟩

/-- np.roll(m, (tx, ty), (0, 1)). -/
def RawMat.roll (M : RawMat) (tx ty : ℤ) : RawMat :=
  ⟨M.rows, M.cols, fun i j =>
    M.val (((i : ℤ) - tx) % (M.rows : ℤ)).toNat (((j : ℤ) - ty) % (M.cols : ℤ)).toNat⟩

/-- A transformation dict(x=…, y=…, rot=…, flip=…). -/
structure Transformation where
  x : ℤ
  y : ℤ
  rot : ℕ
  flip : Bool
deriving DecidableEq

/-- The initial rot list of _getTransformations: quadrant 0 when the raw
shape matches (n_i, n_j), quadrant 1 when it matches the transpose; just
quadrant 0 when rotation is disallowed. -/
def baseRot (P : PatternDef) (rows cols : ℕ) : List ℕ :=
  if P.allowRotation then
    (if P.n_i = rows ∧ P.n_j = cols then [0] else [])
      ++ (if P.n_i = cols ∧ P.n_j = rows then [1] else [])
  else [0]

/-- if hasattr(self, "rot"): rot = self.rot. -/
def chosenRot (P : PatternDef) (rows cols : ℕ) : List ℕ :=
  match P.explicitRot with
  | some l => l
  | none => baseRot P rows cols

/-- if self.allowUpsideDown: rot = [rud for r in rot for rud in [r, r+2]]. -/
def rotCandidates (P : PatternDef) (rows cols : ℕ) : List ℕ :=
  if P.allowUpsideDown then (chosenRot P rows cols).flatMap fun r => [r, r + 2]
  else chosenRot P rows cols

/-- The candidate flips: set([False, self.allowFlip]). -/
def flipCandidates (P : PatternDef) : List Bool :=
  if P.allowFlip then [false, true] else [false]

/-- _getTransformations: for each candidate rotation and flip, apply them
to a working copy, drop the branch if checkUnaligned fails, then search
every cyclic offset for one aligning all markers to nonzero cells and all
empty cells to zeros. -/
def getTransformations (P : PatternDef) (M : RawMat) : List Transformation :=
  (rotCandidates P M.rows M.cols).flatMap fun r =>
    (flipCandidates P).flatMap fun f =>
      let M1 := if f then M.fliplr else M
      let M2 := RawMat.rot90^[r] M1
      if ¬ P.checkUnalignedFn M2.val M2.rows M2.cols then []
      else
        (List.range M2.rows).flatMap fun x =>
          (List.range M2.cols).filterMap fun y =>
            if (P.markers.all fun c =>
                  M2.val ((c.1 + x) % M2.rows) ((c.2 + y) % M2.cols) != 0)
                && (P.emptyCells.all fun c =>
                  M2.val ((c.1 + x) % M2.rows) ((c.2 + y) % M2.cols) == 0)
            then some ⟨-(x : ℤ), -(y : ℤ), r, f⟩ else none

/-- applyTransformation: flip, rotate, cyclic-roll, then crop to the
prototype window [0:protoRows, 0:protoCols]. -/
def applyTransformation (P : PatternDef) (M : RawMat) (t : Transformation) : ℕ → ℕ → ℕ :=
  let M1 := if t.flip then M.fliplr else M
  let M2 := RawMat.rot90^[t.rot] M1
  let M3 := M2.roll t.x t.y
  fun i j => if i < P.protoRows ∧ j < P.protoCols then M3.val i j else 0

/-- _AbstractPattern.__init__ on a supplied matrix m: start from zeros,
set every marker cell to 1, then copy every codebit cell from m (so a cell
listed both as marker and codebit would take the copied value). -/
def mkBits (P : PatternDef) (m : ℕ → ℕ → ℕ) : ℕ → ℕ → ℕ :=
  fun x y => if (x, y) ∈ P.codebits then m x y else if (x, y) ∈ P.markers then 1 else 0

/-- _Pattern1.checkUnaligned: dots = np.sum(m, axis=0); require 2 among
the column counts and at least 8 even column counts. -/
def checkUnaligned1 (m : ℕ → ℕ → ℕ) (rows cols : ℕ) : Bool :=
  let dots := (List.range cols).map fun y => ((List.range rows).map fun x => m x y).sum
  dots.contains 2 && decide (8 ≤ (dots.filter fun d => d % 2 == 0).length)

/-- Pattern3.checkUnaligned: one of the three 16-column thirds sums to 30. -/
def checkUnaligned3 (m : ℕ → ℕ → ℕ) (rows _cols : ℕ) : Bool :=
  let third := fun (o : ℕ) =>
    (((List.range rows).flatMap fun x => (List.range 16).map fun k => m x (o + k))).sum
  third 0 == 30 || third 16 == 30 || third 32 == 30

/-- Pattern4.checkUnaligned: at least 14 odd sums along axis 0 and at
least 7 odd sums along axis 1. -/
def checkUnaligned4 (m : ℕ → ℕ → ℕ) (rows cols : ℕ) : Bool :=
  let colSums := (List.range cols).map fun y => ((List.range rows).map fun x => m x y).sum
  let rowSums := (List.range rows).map fun x => ((List.range cols).map fun y => m x y).sum
  decide (14 ≤ (colSums.filter fun d => d % 2 == 1).length)
    && decide (7 ≤ (rowSums.filter fun d => d % 2 == 1).length)

/-- Pattern1s2.empty. -/
def empty1s2 : List (ℕ × ℕ) :=
  ((List.range 16).flatMap fun x => ([2, 4, 6, 8, 10, 12, 14] : List ℕ).map fun y => (x, y))
    ++ (([3, 5, 7, 9, 11, 13, 15] : List ℕ).flatMap fun x =>
        (List.range 15).map fun k => (x, k + 1))

/-- Pattern1s3.empty. -/
def empty1s3 : List (ℕ × ℕ) :=
  ((List.range 16).flatMap fun x => ([2, 4, 6, 8, 10, 12, 14] : List ℕ).map fun y => (x, y))
    ++ (([0, 2, 4, 6, 8, 10, 12, 14] : List ℕ).flatMap fun x =>
        (List.range 15).map fun k => (x, k + 1))

/-- Pattern2.blocks: 8 blocks of 5 words of 4 cells. -/
def blocks2 : List (List (List (ℕ × ℕ))) :=
  (List.range 4).flatMap fun y => (List.range 2).map fun x =>
    (List.range 5).map fun row =>
      (List.range 4).map fun col =>
        (9 * x + 1 + 2 * col + 1 - (5 * y + 2 + row) % 2, 5 * y + 2 + row)

/-- Pattern2.codebits (the flattened block cells). -/
def codebits2 : List (ℕ × ℕ) := blocks2.flatMap fun wss => wss.flatMap fun w => w

/-- Pattern4.empty. -/
def empty4 : List (ℕ × ℕ) :=
  (List.range 8).flatMap fun k => (List.range 17).map fun y => (8 + k, y)

/-- Pattern4.codebits. -/
def codebits4 : List (ℕ × ℕ) :=
  (List.range 8).flatMap fun x => (List.range 15).map fun k => (x, k + 1)

/-- Pattern1s2: 32x32 raw, 16x16 prototype, markers (0,0),(1,0), no
rotation, no upside-down, no flip, explicit rotations [0,3]. -/
def Pattern1s2def : PatternDef :=
  ⟨32, 32, 16, 16, [(0, 0), (1, 0)], empty1s2, Pattern1.codebits 2,
    false, false, false, some [0, 3], checkUnaligned1⟩

def Pattern1s3def : PatternDef :=
  ⟨32, 32, 16, 16, [(0, 0), (1, 0)], empty1s3, Pattern1.codebits 3,
    false, false, false, some [0, 3], checkUnaligned1⟩

/-- Pattern2: 18x23, no repetition, markers (1,1),(1,0),(0,1), empty
(0,0),(2,1), flip allowed, default checkUnaligned (always true). -/
def Pattern2def : PatternDef :=
  ⟨18, 23, 18, 23, [(1, 1), (1, 0), (0, 1)], [(0, 0), (2, 1)], codebits2,
    true, true, true, none, fun _ _ _ => true⟩

def Pattern3def : PatternDef :=
  ⟨24, 48, 24, 16, [(0, 4), (0, 1), (2, 1)], [], Pattern3.blocks.flatMap (fun b => b),
    false, true, true, none, checkUnaligned3⟩

def Pattern4def : PatternDef :=
  ⟨16, 32, 8, 16, [], empty4, codebits4, true, true, true, none, checkUnaligned4⟩

def allPatterns : List PatternDef :=
  [Pattern1s2def, Pattern1s3def, Pattern2def, Pattern3def, Pattern4def]

/-- A raw 18x23 matrix holding exactly Pattern2's marker template. -/
def M2w : RawMat :=
  ⟨18, 23, fun x y => if (x, y) ∈ [((1 : ℕ), (1 : ℕ)), (1, 0), (0, 1)] then 1 else 0⟩

/-- The identity transformation. -/
def t0 : Transformation := ⟨0, 0, 0, false⟩

/-- Spec-side reading (claim C5 wording) of the base rotation-quadrant
set: the explicit list if set, else quadrant 0 when the raw dimensions
match and quadrant 1 when they match the transpose, else just quadrant 0
when rotation is disallowed. -/
def specQuadrantBase (P : PatternDef) (rows cols b : ℕ) : Prop :=
  match P.explicitRot with
  | some l => b ∈ l
  | none =>
    if P.allowRotation = true then
      (b = 0 ∧ P.n_i = rows ∧ P.n_j = cols) ∨ (b = 1 ∧ P.n_i = cols ∧ P.n_j = rows)
    else b = 0

/-- Spec-side reading of the full candidate set: every base quadrant, plus
r + 2 for each when upside-down is allowed. -/
def specQuadrant (P : PatternDef) (rows cols q : ℕ) : Prop :=
  ∃ b, specQuadrantBase P rows cols b ∧ (q = b ∨ (P.allowUpsideDown = true ∧ q = b + 2))

/- Value equality of pattern instances (_AbstractPattern.__hash__ and
__eq__): the hash input is the subclass name concatenated with the digits
of the flattened aligned grid; __eq__ compares the hashes. Python string
hashing is abstracted as string identity. -/

inductive PatKind where
  | p1s2
  | p1s3
  | p2k
  | p3k
  | p4k
deriving DecidableEq

/-- The subclass __name__. -/
def className : PatKind → List Char := fun k =>
  match k with
  | PatKind.p1s2 => ("Pattern1s2").toList
  | PatKind.p1s3 => ("Pattern1s3").toList
  | PatKind.p2k => ("Pattern2").toList
  | PatKind.p3k => ("Pattern3").toList
  | PatKind.p4k => ("Pattern4").toList

/-- str(int(x)) for one flattened cell (uint8, so below 1000). -/
def cellStr (b : ℕ) : List Char := natToDec b

/-- "%s%s" % (class name, "".join(str(int(x)) for x in aligned.flat)):
the string __hash__ hashes. -/
def hashPayload (k : PatKind) (bits : List ℕ) : List Char :=
  className k ++ bits.flatMap cellStr

/-- __eq__: hash(self) == hash(o). -/
def tdmBEq (k1 : PatKind) (b1 : List ℕ) (k2 : PatKind) (b2 : List ℕ) : Bool :=
  hashPayload k1 b1 == hashPayload k2 b2

/-- A deterministic instance of random.sample: take the first n candidates. -/
def takePick : List ℕ → ℕ → List ℕ := fun l n => l.take n

/-- A deterministic instance of random.choice: take the first candidate. -/
def headPick : List (ℕ × ℕ) → ℕ × ℕ := fun l => l.headD (0, 0)

/-- A family-1 (s=2) grid passing check: columns groups 1 and 3 hold two
dots each, total 4. -/
def g20 : Grid := fun x y => if (x, y) ∈ [((2 : ℕ), (1 : ℕ)), (4, 1), (2, 3), (4, 3)] then 1 else 0

/-- A family-3 grid passing check: the three markers plus the first cell of
each of the 27 blocks, 30 dots in total. -/
def g3w : Grid := fun x y =>
  if (x, y) ∈ ([((0 : ℕ), (4 : ℕ)), (0, 1), (2, 1)] ++ Pattern3.blocks.map fun b => b.headD (0, 0))
  then 1 else 0

/-- A family-4 grid passing check: row 7 holds columns 1..14, rows 1..6
hold column 15, plus cell (7,15). -/
def gW4 : Grid := fun x y =>
  if x = 7 ∧ 1 ≤ y ∧ y ≤ 15 then 1 else if 1 ≤ x ∧ x ≤ 6 ∧ y = 15 then 1 else 0

/-- C6: the code evaluated at the failing inputs. Setting the manufacturer
by a name (any non-numeric value) hits the undefined global name
`manufacturers` (NameError), never the intended KeyError; a value with too
many digits for the field's row count fails the length assert. -/
theorem C6_manufacturer_set_errors :
    Pattern4.errOf (Pattern4.setitem zeroGrid ("manufacturer") (("NotAPrinter").toList))
      = some Pattern4.SetErr.nameErr ∧
    Pattern4.errOf (Pattern4.setitem zeroGrid ("minutes") (("123").toList))
      = some Pattern4.SetErr.assertErr := by
  constructor
  · rfl
  · rfl

/-- C7: a Pattern4 grid encoding minutes=55, hour=15, day=12, month=6,
year=18 decodes to the timestamp 2018-06-12 15:55, the year being mapped
to the nearer of the centuries 2000/1900 around the pivot 2018. -/
theorem C7_timestamp_scenario :
    ((Pattern4.setitem zeroGrid ("minutes") (("55").toList)).bind fun g1 =>
     (Pattern4.setitem g1 ("hour") (("15").toList)).bind fun g2 =>
     (Pattern4.setitem g2 ("day") (("12").toList)).bind fun g3 =>
     (Pattern4.setitem g3 ("month") (("6").toList)).bind fun g4 =>
     (Pattern4.setitem g4 ("year") (("18").toList)).map fun g5 =>
     Pattern4.decodeTimestamp g5).toOption
      = some (some ⟨2018, 6, 12, 15, 55⟩) := by
  decide

/-- C1 counterexample: for the multi-row field "printer" and the valid
8-digit value "01000000", writing and reading back yields "01100000": the
write slices value[i:i+2] instead of value[2i:2i+2], so digits are
misplaced and the round-trip fails (also as numbers, not merely padding). -/
theorem C1_roundtrip_counterexample :
    ((Pattern4.setitem zeroGrid ("printer") (("01000000").toList)).toOption.map
      fun g => Pattern4.getitem g ("printer"))
      = some (some (some (("01100000").toList))) ∧
    strToNat (("01100000").toList) ≠ strToNat (("01000000").toList) := by
  constructor
  · decide
  · decide

/-- C3 counterexample: the family-3 block layout has 27 one-hot blocks (the
6 x 5 grid of block positions minus the three with bx + by < 2), not 28
blocks minus two reserved positions as the claim states. -/
theorem C3_blocks_counterexample :
    Pattern3.blocks.length = 27 ∧ Pattern3.blocks.length ≠ 28 := by
  decide

/-- C3 amended: Pattern3.check holds iff the prototype (first third of the
repeated grid) has exactly 30 dots and each of the 27 one-hot blocks sums
to exactly 1. -/
theorem C3_check_characterisation (g : Grid) :
    Pattern3.check g = true ↔
      (Pattern3.totalSum g = 30 ∧ ∀ b ∈ Pattern3.blocks, Pattern3.blockSum g b = 1) := by
  by_cases h : Pattern3.totalSum g = 30
  · simp [Pattern3.check, h, List.all_eq_true]
  · simp [Pattern3.check, h]

set_option maxRecDepth 8000 in
theorem C3_check_witness :
    Pattern3.totalSum g3w = 30 ∧ ∀ b ∈ Pattern3.blocks, Pattern3.blockSum g3w b = 1 :=
  (C3_check_characterisation g3w).mp (by decide)

/-- C10: for families 1 and 3, every cell set in the strategic mask is
sampled from cells that are empty in the source grid (for family 3 under
the precondition that each block has an empty candidate; otherwise the
source raises IndexError). -/
theorem C10_mask_only_empty_cells
    (pickS : List ℕ → ℕ → List ℕ) (pickC : List (ℕ × ℕ) → ℕ × ℕ)
    (hS : ∀ l n, ∀ x ∈ pickS l n, x ∈ l)
    (hC : ∀ l, l ≠ [] → pickC l ∈ l)
    (s : ℕ) (g : Grid) (x y : ℕ) :
    (Pattern1.createMask s pickS g x y = 1 → g x y = 0) ∧
    ((∀ b ∈ Pattern3.blocks, b.filter (fun c => g c.1 c.2 == 0) ≠ []) →
      Pattern3.createMaskStrategic pickC g x y = 1 → g x y = 0) := by
  constructor
  · intro hm
    unfold Pattern1.createMask at hm
    split at hm
    · next hcond =>
      have hx := hS _ _ _ hcond.2
      have hzero := List.of_mem_filter hx
      simpa using hzero
    · next => exact absurd hm (by decide)
  · intro hne hm
    unfold Pattern3.createMaskStrategic at hm
    split at hm
    · next hcond =>
      rw [List.any_eq_true] at hcond
      obtain ⟨b, hb, hpb⟩ := hcond
      have hmem := hC _ (hne b hb)
      rw [beq_iff_eq] at hpb
      rw [hpb] at hmem
      have hzero := List.of_mem_filter hmem
      simpa using hzero
    · next => exact absurd hm (by decide)

theorem C10_mask_witness :
    (Pattern1.createMask 2 takePick zeroGrid 2 1 = 1 → zeroGrid 2 1 = 0) ∧
    ((∀ b ∈ Pattern3.blocks, b.filter (fun c => zeroGrid c.1 c.2 == 0) ≠ []) →
      Pattern3.createMaskStrategic headPick zeroGrid 2 1 = 1 → zeroGrid 2 1 = 0) :=
  C10_mask_only_empty_cells takePick headPick
    (fun l n x hx => List.take_subset n l hx)
    (fun l hl => by
      cases l with
      | nil => exact absurd rfl hl
      | cons a t => simp [headPick])
    2 zeroGrid 2 1

theorem takePick_isSample : Pattern1.IsSample takePick := by
  constructor
  · intro l n x hx
    exact List.take_subset n l hx
  · intro l n hl hn
    refine ⟨?_, (List.take_sublist n l).nodup hl⟩
    simp only [takePick, List.length_take]
    omega

theorem sum_indicator_length (l sel : List ℕ) (hl : l.Nodup) (hsel : sel.Nodup)
    (hsub : ∀ x ∈ sel, x ∈ l) :
    ((l.map fun c => if c ∈ sel then (1 : ℕ) else 0).sum) = sel.length := by
  classical
  rw [← List.sum_toFinset _ hl]
  have h1 : (l.toFinset.sum fun c => if c ∈ sel then (1 : ℕ) else 0)
      = l.toFinset.sum fun c => if c ∈ sel.toFinset then (1 : ℕ) else 0 := by
    apply Finset.sum_congr rfl
    intro c _
    simp [List.mem_toFinset]
  rw [h1, Finset.sum_ite_mem]
  have h2 : l.toFinset ∩ sel.toFinset = sel.toFinset := by
    apply Finset.inter_eq_right.mpr
    intro c hc
    exact List.mem_toFinset.mpr (hsub c (List.mem_toFinset.mp hc))
  rw [h2, Finset.sum_const, smul_eq_mul, mul_one, List.toFinset_card_of_nodup hsel]

theorem mask_parity_core (s : ℕ) (pick : List ℕ → ℕ → List ℕ)
    (hp : Pattern1.IsSample pick) (g : Grid)
    (hlen : (Pattern1.Cs s).length = 7) (hnodup : (Pattern1.Cs s).Nodup)
    (hb : ∀ c ∈ Pattern1.Cs s, g c 1 ≤ 1)
    (hpar : Pattern1.colSum s g 1 % 2 = 0) :
    Pattern1.colSum s (orGrid g (Pattern1.createMask s pick g)) 1 % 2 = 1 := by
  classical
  obtain ⟨L, hLdef⟩ :
      ∃ L, pick (Pattern1.emptyCols s g 1) (Pattern1.amountNew s g 1) = L := ⟨_, rfl⟩
  have hFnodup : (Pattern1.emptyCols s g 1).Nodup := List.Nodup.filter _ hnodup
  have hFsub : ∀ x ∈ Pattern1.emptyCols s g 1, x ∈ Pattern1.Cs s :=
    fun x hx => List.mem_of_mem_filter hx
  have hFzero : ∀ x ∈ Pattern1.emptyCols s g 1, g x 1 = 0 := by
    intro x hx
    have hx0 := List.of_mem_filter hx
    simpa using hx0
  -- a binary column group's dot count is the number of its nonzero cells
  have hones : ∀ l : List ℕ, (∀ c ∈ l, g c 1 ≤ 1) →
      ((l.map fun c => g c 1).sum) = (l.filter fun c => !(g c 1 == 0)).length := by
    intro l
    induction l with
    | nil => intro _; simp
    | cons u t ih =>
      intro hb'
      have hu := hb' u (List.mem_cons_self u t)
      have ht := fun c hc => hb' c (List.mem_cons_of_mem u hc)
      rcases Nat.le_one_iff_eq_zero_or_eq_one.mp hu with h0 | h1
      · simp [List.filter_cons, h0, ih ht]
      · simp [List.filter_cons, h1, ih ht, Nat.add_comm]
  have hsplitgen : ∀ l : List ℕ,
      (l.filter fun c => g c 1 == 0).length
        + (l.filter fun c => !(g c 1 == 0)).length = l.length := by
    intro l
    induction l with
    | nil => simp
    | cons u t ih =>
      by_cases h : g u 1 = 0
      · simp only [List.filter_cons, h]
        simp
        omega
      · simp only [List.filter_cons]
        have h' : (g u 1 == 0) = false := by
          simpa using h
        simp [h']
        omega
  have hk : Pattern1.colSum s g 1
      = ((Pattern1.Cs s).filter fun c => !(g c 1 == 0)).length := hones _ hb
  have hsplit := hsplitgen (Pattern1.Cs s)
  have hE : (Pattern1.emptyCols s g 1).length
      = ((Pattern1.Cs s).filter fun c => g c 1 == 0).length := rfl
  -- the sample request is satisfiable
  have haF : Pattern1.amountNew s g 1 ≤ (Pattern1.emptyCols s g 1).length := by
    unfold Pattern1.amountNew
    by_cases h0 : Pattern1.colSum s g 1 = 0
    · rw [if_pos h0]
      omega
    · rw [if_neg h0]
      omega
  have hLfacts := hp.2 (Pattern1.emptyCols s g 1) (Pattern1.amountNew s g 1) hFnodup haF
  rw [hLdef] at hLfacts
  have hLsub : ∀ x ∈ L, x ∈ Pattern1.emptyCols s g 1 := fun x hx =>
    hp.1 _ _ x (by rw [hLdef]; exact hx)
  -- pointwise, OR-ing in the mask adds the indicator of the sampled set
  have hpoint : ∀ c ∈ Pattern1.Cs s,
      orGrid g (Pattern1.createMask s pick g) c 1
        = g c 1 + (if c ∈ L then 1 else 0) := by
    intro c hc
    have hmask : Pattern1.createMask s pick g c 1 = if c ∈ L then 1 else 0 := by
      simp only [Pattern1.createMask]
      rw [hLdef]
      by_cases hcL : c ∈ L
      · rw [if_pos ⟨by decide, hcL⟩, if_pos hcL]
      · rw [if_neg (fun hand => hcL hand.2), if_neg hcL]
    show (if 0 < g c 1 + Pattern1.createMask s pick g c 1 then 1 else 0)
        = g c 1 + (if c ∈ L then 1 else 0)
    rw [hmask]
    by_cases hcL : c ∈ L
    · have hz := hFzero c (hLsub c hcL)
      simp [hcL, hz]
    · rcases Nat.le_one_iff_eq_zero_or_eq_one.mp (hb c hc) with h0 | h1
      · simp [hcL, h0]
      · simp [hcL, h1]
  have hadd : ∀ l : List ℕ,
      ((l.map fun c => g c 1 + (if c ∈ L then 1 else 0)).sum)
        = ((l.map fun c => g c 1).sum)
          + ((l.map fun c => if c ∈ L then (1 : ℕ) else 0).sum) := by
    intro l
    induction l with
    | nil => simp
    | cons u t ih =>
      simp only [List.map_cons, List.sum_cons, ih]
      omega
  have hsum : Pattern1.colSum s (orGrid g (Pattern1.createMask s pick g)) 1
      = Pattern1.colSum s g 1 + L.length := by
    unfold Pattern1.colSum
    rw [List.map_congr_left hpoint, hadd,
      sum_indicator_length _ _ hnodup hLfacts.2 (fun x hx => hFsub x (hLsub x hx))]
  rw [hsum, hLfacts.1]
  unfold Pattern1.amountNew
  by_cases h0 : Pattern1.colSum s g 1 = 0
  · rw [if_pos h0, h0]
  · rw [if_neg h0]
    omega

/-- C2 corrected (family 1): the strategic mask adds 3 new dots to a column
group with zero dots and 1 otherwise — an odd count, always placed on
empty cells — so it flips the parity of every column group, and the OR of
any binary grid passing check with its mask always fails check. -/
theorem C2_strategic_mask_breaks_check (s : ℕ) (hs : s = 2 ∨ s = 3)
    (pick : List ℕ → ℕ → List ℕ) (hp : Pattern1.IsSample pick) (g : Grid)
    (hb : ∀ c ∈ Pattern1.Cs s, ∀ r ∈ Pattern1.R, g c r ≤ 1)
    (hc : Pattern1.check s g = true) :
    Pattern1.check s (orGrid g (Pattern1.createMask s pick g)) = false := by
  simp only [Pattern1.check, Bool.and_eq_true, List.all_eq_true, decide_eq_true_eq,
    beq_iff_eq] at hc
  have h1R : (1 : ℕ) ∈ Pattern1.R := by decide
  have hpar := hc.2 1 h1R
  have hlen : (Pattern1.Cs s).length = 7 := by
    rcases hs with rfl | rfl <;> decide
  have hnodup : (Pattern1.Cs s).Nodup := by
    rcases hs with rfl | rfl <;> decide
  have hodd := mask_parity_core s pick hp g hlen hnodup
    (fun c hcc => hb c hcc 1 h1R) hpar
  rw [Bool.eq_false_iff]
  intro htrue
  simp only [Pattern1.check, Bool.and_eq_true, List.all_eq_true, decide_eq_true_eq,
    beq_iff_eq] at htrue
  have := htrue.2 1 h1R
  omega

/-- C2 counterexample: a concrete family-1 (s=2) grid passing check whose
OR with a strategic mask outcome fails check. -/
theorem C2_mask_counterexample :
    Pattern1.check 2 g20 = true ∧
    Pattern1.check 2 (orGrid g20 (Pattern1.createMask 2 takePick g20)) = false := by
  constructor
  · decide
  · decide

theorem C2_mask_witness :
    Pattern1.check 2 (orGrid g20 (Pattern1.createMask 2 takePick g20)) = false :=
  C2_strategic_mask_breaks_check 2 (Or.inl rfl) takePick takePick_isSample g20
    (by decide) (by decide)

theorem mkBits_marker (P : PatternDef) (m : ℕ → ℕ → ℕ)
    (hd : ∀ c ∈ P.markers, ¬ c ∈ P.codebits) :
    ∀ c ∈ P.markers, mkBits P m c.1 c.2 = 1 := by
  intro c hc
  simp only [mkBits, Prod.mk.eta]
  rw [if_neg (hd c hc), if_pos hc]

theorem mkBits_outside (P : PatternDef) (m : ℕ → ℕ → ℕ) (x y : ℕ)
    (h1 : ¬ (x, y) ∈ P.codebits) (h2 : ¬ (x, y) ∈ P.markers) :
    mkBits P m x y = 0 := by
  simp only [mkBits]
  rw [if_neg h1, if_neg h2]

/-- C5: the search's candidate rotation quadrants are the explicit rot
list when set, else quadrant 0 when the raw shape matches (gridRows,
gridCols) and quadrant 1 when it matches the transpose (only quadrant 0
with rotation disallowed), each expanded by r+2 when upside-down is
allowed; and the candidate flips are exactly false plus allowFlip. -/
theorem mem_chosenRot (P : PatternDef) (rows cols b : ℕ) :
    b ∈ chosenRot P rows cols ↔ specQuadrantBase P rows cols b := by
  unfold chosenRot specQuadrantBase baseRot
  rcases P.explicitRot with _ | l
  · cases hR : P.allowRotation
    · simp
    · by_cases h1 : P.n_i = rows ∧ P.n_j = cols <;>
        by_cases h2 : P.n_i = cols ∧ P.n_j = rows <;>
        simp [h1, h2] <;> tauto
  · simp

theorem C5_candidate_derivation (P : PatternDef) (rows cols : ℕ) :
    (∀ q : ℕ, q ∈ rotCandidates P rows cols ↔ specQuadrant P rows cols q) ∧
    (∀ f : Bool, f ∈ flipCandidates P ↔ (f = false ∨ f = P.allowFlip)) := by
  constructor
  · intro q
    unfold rotCandidates specQuadrant
    cases hUD : P.allowUpsideDown
    · rw [if_neg (by simp)]
      constructor
      · intro hq
        exact ⟨q, (mem_chosenRot P rows cols q).mp hq, Or.inl rfl⟩
      · rintro ⟨b, hb, hq | hq⟩
        · rw [hq]
          exact (mem_chosenRot P rows cols b).mpr hb
        · exact absurd hq.1 (by simp)
    · rw [if_pos rfl, List.mem_flatMap]
      constructor
      · rintro ⟨b, hb, hmem⟩
        refine ⟨b, (mem_chosenRot P rows cols b).mp hb, ?_⟩
        rcases List.mem_cons.mp hmem with h | h
        · exact Or.inl h
        · exact Or.inr ⟨rfl, by simpa using h⟩
      · rintro ⟨b, hb, hq | hq⟩
        · exact ⟨b, (mem_chosenRot P rows cols b).mpr hb, by simp [hq]⟩
        · exact ⟨b, (mem_chosenRot P rows cols b).mpr hb, by simp [hq.2]⟩
  · intro f
    unfold flipCandidates
    cases hAF : P.allowFlip <;> cases f <;> simp

set_option maxRecDepth 40000 in
/-- C4: every aligned instance accepted by the transformation search has
all marker cells equal to 1 and all empty cells equal to 0 in its bits
grid (for Pattern4 the empty cells lie outside the 8x16 prototype and the
constructed bits function is 0 there). -/
theorem C4_search_invariant (P : PatternDef) (hP : P ∈ allPatterns)
    (M : RawMat) (t : Transformation) (ht : t ∈ getTransformations P M) :
    (∀ c ∈ P.markers, mkBits P (applyTransformation P M t) c.1 c.2 = 1) ∧
    (∀ c ∈ P.emptyCells, mkBits P (applyTransformation P M t) c.1 c.2 = 0) := by
  have hmd : ∀ c ∈ P.markers, ¬ c ∈ P.codebits := by
    fin_cases hP <;> decide
  have hed : ∀ c ∈ P.emptyCells, ¬ c ∈ P.codebits ∧ ¬ c ∈ P.markers := by
    fin_cases hP <;> decide
  refine ⟨mkBits_marker P _ hmd, fun c hc => ?_⟩
  have h := hed c hc
  have hz := mkBits_outside P (applyTransformation P M t) c.1 c.2 h.1 h.2
  simpa using hz

theorem C4_search_witness :
    (mkBits Pattern2def (applyTransformation Pattern2def M2w t0) 1 1 = 1) ∧
    (mkBits Pattern2def (applyTransformation Pattern2def M2w t0) 0 0 = 0) := by
  have h := C4_search_invariant Pattern2def
    (List.Mem.tail _ (List.Mem.tail _ (List.Mem.head _))) M2w t0 (by decide)
  exact ⟨h.1 (1, 1) (by decide), h.2 (0, 0) (by decide)⟩

set_option maxRecDepth 40000 in
/-- C9: for every pattern variant and every caller-supplied grid m, the
constructed bits grid forces marker cells to 1, zeroes every cell outside
markers and codebits, and copies exactly the codebit cells from m. -/
theorem C9_bits_construction (P : PatternDef) (hP : P ∈ allPatterns)
    (m : ℕ → ℕ → ℕ) (x y : ℕ) :
    ((x, y) ∈ P.markers → mkBits P m x y = 1) ∧
    (¬ (x, y) ∈ P.markers ∧ ¬ (x, y) ∈ P.codebits → mkBits P m x y = 0) ∧
    ((x, y) ∈ P.codebits → mkBits P m x y = m x y) := by
  have hmd : ∀ c ∈ P.markers, ¬ c ∈ P.codebits := by
    fin_cases hP <;> decide
  refine ⟨fun h => ?_, fun h => mkBits_outside P m x y h.2 h.1, fun h => ?_⟩
  · have h1 := mkBits_marker P m hmd (x, y) h
    simpa using h1
  · simp only [mkBits]
    rw [if_pos h]

theorem C9_bits_witness :
    mkBits Pattern2def M2w.val 1 1 = 1 ∧ mkBits Pattern2def M2w.val 0 0 = 0 :=
  ⟨(C9_bits_construction Pattern2def
      (List.Mem.tail _ (List.Mem.tail _ (List.Mem.head _))) M2w.val 1 1).1 (by decide),
   (C9_bits_construction Pattern2def
      (List.Mem.tail _ (List.Mem.tail _ (List.Mem.head _))) M2w.val 0 0).2.1 (by decide)⟩

theorem cellStr_le_one (a : ℕ) (ha : a ≤ 1) : cellStr a = [digitChar a] := by
  unfold cellStr natToDec
  rw [if_pos (by omega)]

theorem cellStr_inj (b1 : List ℕ) : ∀ (b2 : List ℕ),
    (∀ v ∈ b1, v ≤ 1) → (∀ v ∈ b2, v ≤ 1) →
    b1.flatMap cellStr = b2.flatMap cellStr → b1 = b2 := by
  induction b1 with
  | nil =>
    intro b2 _ h2 h
    cases b2 with
    | nil => rfl
    | cons a t =>
      rw [List.flatMap_nil, List.flatMap_cons,
        cellStr_le_one a (h2 a (List.mem_cons_self a t))] at h
      exact absurd h (by simp)
  | cons a t ih =>
    intro b2 h1 h2 h
    cases b2 with
    | nil =>
      rw [List.flatMap_cons, List.flatMap_nil,
        cellStr_le_one a (h1 a (List.mem_cons_self a t))] at h
      exact absurd h (by simp)
    | cons a' t' =>
      have ha := h1 a (List.mem_cons_self a t)
      have ha' := h2 a' (List.mem_cons_self a' t')
      rw [List.flatMap_cons, List.flatMap_cons, cellStr_le_one a ha,
        cellStr_le_one a' ha'] at h
      simp only [List.singleton_append, List.cons.injEq] at h
      have haa : a = a' := by
        rcases Nat.le_one_iff_eq_zero_or_eq_one.mp ha with h0 | h0 <;>
          rcases Nat.le_one_iff_eq_zero_or_eq_one.mp ha' with h0' | h0' <;>
          subst h0 <;> subst h0' <;> first
          | rfl
          | exact absurd h.1 (by decide)
      subst haa
      have ht := ih t' (fun v hv => h1 v (List.mem_cons_of_mem a hv))
        (fun v hv => h2 v (List.mem_cons_of_mem a hv)) h.2
      rw [ht]

theorem append_ne_of_ne_at (n1 n2 t1 t2 : List Char) (i : ℕ)
    (hi1 : i < n1.length) (hi2 : i < n2.length) (hne : n1[i]? ≠ n2[i]?) :
    n1 ++ t1 ≠ n2 ++ t2 := by
  intro h
  apply hne
  have e1 : (n1 ++ t1)[i]? = n1[i]? := by rw [List.getElem?_append, if_pos hi1]
  have e2 : (n2 ++ t2)[i]? = n2[i]? := by rw [List.getElem?_append, if_pos hi2]
  rw [← e1, ← e2, h]

/-- C8: two instances compare equal iff they are of the same pattern
variant and have identical (binary) bits content — the hash payloads are
injective because no class name is a prefix of another and each binary
cell contributes exactly one character. -/
theorem C8_value_equality (k1 : PatKind) (b1 : List ℕ) (k2 : PatKind) (b2 : List ℕ)
    (h1 : ∀ v ∈ b1, v ≤ 1) (h2 : ∀ v ∈ b2, v ≤ 1) :
    tdmBEq k1 b1 k2 b2 = true ↔ (k1 = k2 ∧ b1 = b2) := by
  unfold tdmBEq
  rw [beq_iff_eq]
  constructor
  · intro h
    unfold hashPayload at h
    have hk : k1 = k2 := by
      by_contra hne
      cases k1 <;> cases k2 <;> first
        | exact hne rfl
        | exact append_ne_of_ne_at _ _ _ _ 7 (by decide) (by decide) (by decide) h
        | exact append_ne_of_ne_at _ _ _ _ 9 (by decide) (by decide) (by decide) h
    subst hk
    exact ⟨rfl, cellStr_inj b1 b2 h1 h2 (List.append_cancel_left h)⟩
  · rintro ⟨hk, hb⟩
    rw [hk, hb]

theorem C8_value_witness :
    tdmBEq PatKind.p4k [1, 0, 1] PatKind.p4k [1, 0, 1] = true ↔
      (PatKind.p4k = PatKind.p4k ∧ ([1, 0, 1] : List ℕ) = [1, 0, 1]) :=
  C8_value_equality PatKind.p4k [1, 0, 1] PatKind.p4k [1, 0, 1] (by decide) (by decide)

theorem strToNat_cons_zero (s : List Char) : strToNat ('0' :: s) = strToNat s := rfl

theorem strToNat_pad2 : ∀ n : ℕ, n < 128 → strToNat (pad2 n) = n := by decide

theorem strToNat_le_two_digits (s : List Char) (hd : isDigitStr s = true)
    (hlen : s.length ≤ 2) : strToNat s ≤ 99 := by
  have hdig : ∀ c ∈ s, 48 ≤ c.toNat ∧ c.toNat ≤ 57 := by
    intro c hc
    have hall : s.all charIsDigit = true := by
      unfold isDigitStr at hd
      rw [Bool.and_eq_true] at hd
      exact hd.2
    have hcd := List.all_eq_true.mp hall c hc
    unfold charIsDigit at hcd
    rw [Bool.and_eq_true] at hcd
    exact ⟨of_decide_eq_true hcd.1, of_decide_eq_true hcd.2⟩
  rcases s with _ | ⟨c, t⟩
  · decide
  rcases t with _ | ⟨c', t'⟩
  · have h1 := hdig c (by simp)
    unfold strToNat charVal
    simp only [List.foldl_cons, List.foldl_nil]
    omega
  rcases t' with _ | ⟨c'', t''⟩
  · have h1 := hdig c (by simp)
    have h2 := hdig c' (by simp)
    unfold strToNat charVal
    simp only [List.foldl_cons, List.foldl_nil]
    omega
  · simp at hlen

theorem setitem_plain (g : Grid) (name : String) (row : ℕ)
    (hf : Pattern4.format name = some [row])
    (hns : name ≠ "serial") (hnm : name ≠ "manufacturer")
    (s : List Char) (hd : isDigitStr s = true) (hlen : s.length ≤ 2) :
    Pattern4.setitem g name s
      = Except.ok (Pattern4.cell015Fix (Pattern4.colParityFix
          (Pattern4.writeCol g row (strToNat s)))) := by
  have hne : s ≠ [] := by
    intro h
    rw [h] at hd
    exact absurd hd (by decide)
  have hpos : 0 < s.length := List.length_pos.mpr hne
  simp only [Pattern4.setitem, if_neg hns, hd, eq_self_iff_true, not_true, and_false,
    if_false, hf, List.length_cons, List.length_nil, Nat.mul_one]
  by_cases heven : s.length % 2 = 0
  · have hlen2 : s.length = 2 := by omega
    rw [if_neg (show ¬ s.length % 2 ≠ 0 from fun h => h heven),
      if_neg (show ¬ s.length ≠ 2 * (0 + 1) from fun h => h (by omega)),
      (by decide : List.range (0 + 1) = [0]), List.foldl_cons, List.foldl_nil,
      List.getD_cons_zero, List.drop_zero, List.take_of_length_le (by omega)]
  · have hlen1 : s.length = 1 := by omega
    rw [if_pos (show s.length % 2 ≠ 0 from heven),
      if_neg (show ¬ ('0' :: s).length ≠ 2 * (0 + 1) from fun h => h (by simp; omega)),
      (by decide : List.range (0 + 1) = [0]), List.foldl_cons, List.foldl_nil,
      List.getD_cons_zero, List.drop_zero,
      List.take_of_length_le (by simp; omega), strToNat_cons_zero]

theorem getitem_plain (g' : Grid) (name : String) (row : ℕ)
    (hf : Pattern4.format name = some [row])
    (hns : name ≠ "serial") (hnm : name ≠ "manufacturer") :
    Pattern4.getitem g' name = some (some (pad2 (Pattern4.getColNum g' row))) := by
  simp only [Pattern4.getitem, hf, if_neg hnm, if_neg hns, Pattern4.rawDecoded,
    List.flatMap_cons, List.flatMap_nil, List.append_nil]

theorem writeCol_at (g : Grid) (row v x y : ℕ) (hx : x < 8) :
    Pattern4.writeCol g row v x y = if y = row then Pattern4.valbin v x else g x y := by
  unfold Pattern4.writeCol
  by_cases hyr : y = row
  · rw [if_pos ⟨hx, hyr⟩, if_pos hyr]
  · rw [if_neg (fun h => hyr h.2), if_neg hyr]

theorem writeCol_ne (g : Grid) (row v x y : ℕ) (hy : y ≠ row) :
    Pattern4.writeCol g row v x y = g x y := by
  unfold Pattern4.writeCol
  rw [if_neg (fun h => hy h.2)]

theorem gf_cell_main (g : Grid) (row v x y : ℕ) (hy : y ≤ 14) :
    Pattern4.cell015Fix (Pattern4.colParityFix (Pattern4.writeCol g row v)) x y
      = Pattern4.writeCol g row v x y := by
  unfold Pattern4.cell015Fix Pattern4.colParityFix
  rw [if_neg (fun h => by omega), if_neg (fun h => by omega)]

theorem gf_cell_15 (g : Grid) (row v x : ℕ) (h1 : 1 ≤ x) (h2 : x < 8) :
    Pattern4.cell015Fix (Pattern4.colParityFix (Pattern4.writeCol g row v)) x 15
      = 1 - Pattern4.rowSum14 (Pattern4.writeCol g row v) x % 2 := by
  unfold Pattern4.cell015Fix Pattern4.colParityFix
  rw [if_neg (fun h => by omega), if_pos ⟨h2, rfl⟩]

theorem getCol_after_set (g : Grid) (row v : ℕ) (hr1 : 1 ≤ row) (hr2 : row ≤ 14)
    (hv : v < 128) :
    Pattern4.getColNum
      (Pattern4.cell015Fix (Pattern4.colParityFix (Pattern4.writeCol g row v))) row = v := by
  have hsum : ∀ w : ℕ, w < 128 →
      ((List.range 7).map fun k => Pattern4.valbin w (k + 1) * 2 ^ (6 - k)).sum = w := by
    decide
  have hcells : ∀ k ∈ List.range 7,
      Pattern4.cell015Fix (Pattern4.colParityFix (Pattern4.writeCol g row v)) (k + 1) row
          * 2 ^ (6 - k)
        = Pattern4.valbin v (k + 1) * 2 ^ (6 - k) := by
    intro k hk
    rw [gf_cell_main g row v (k + 1) row hr2,
      writeCol_at g row v (k + 1) row (by have := List.mem_range.mp hk; omega), if_pos rfl]
  unfold Pattern4.getColNum
  rw [List.map_congr_left hcells]
  exact hsum v hv

theorem check_after_set (g : Grid) (row v : ℕ)
    (hr1 : 1 ≤ row) (hr2 : row ≤ 14) (hv : v < 128)
    (hc : Pattern4.check g = true) (hres : Pattern4.reservedOK row v) :
    Pattern4.check
      (Pattern4.cell015Fix (Pattern4.colParityFix (Pattern4.writeCol g row v))) = true := by
  simp only [Pattern4.check, Bool.and_eq_true, List.all_eq_true, List.mem_range,
    beq_iff_eq] at hc ⊢
  obtain ⟨⟨⟨hcol, _hrow⟩, h9⟩, h10⟩ := hc
  have hvbsum : ∀ w : ℕ, w < 128 →
      (((List.range 8).map fun x => Pattern4.valbin w x).sum) % 2 = 1 := by decide
  have hvb9 : ∀ w : ℕ, w < 16 →
      Pattern4.valbin w 1 = 0 ∧ Pattern4.valbin w 2 = 0 ∧ Pattern4.valbin w 3 = 0 := by
    decide
  have hvb10 : ∀ w : ℕ, w < 32 →
      Pattern4.valbin w 1 = 0 ∧ Pattern4.valbin w 2 = 0 := by decide
  have hcolw : ∀ y : ℕ, y ≤ 14 →
      Pattern4.colSum8
          (Pattern4.cell015Fix (Pattern4.colParityFix (Pattern4.writeCol g row v))) y
        = Pattern4.colSum8 (Pattern4.writeCol g row v) y := by
    intro y hy2
    unfold Pattern4.colSum8
    exact congrArg List.sum (List.map_congr_left fun x _ => gf_cell_main g row v x y hy2)
  have hcol_or : ∀ y : ℕ, y ≠ row →
      Pattern4.colSum8 (Pattern4.writeCol g row v) y = Pattern4.colSum8 g y := by
    intro y hy
    unfold Pattern4.colSum8
    exact congrArg List.sum (List.map_congr_left fun x _ => writeCol_ne g row v x y hy)
  have hcol_row :
      Pattern4.colSum8 (Pattern4.writeCol g row v) row
        = ((List.range 8).map fun x => Pattern4.valbin v x).sum := by
    unfold Pattern4.colSum8
    refine congrArg List.sum (List.map_congr_left fun x hx => ?_)
    rw [writeCol_at g row v x row (List.mem_range.mp hx), if_pos rfl]
  have hzcell : ∀ a b : ℕ, 1 ≤ a → a < 8 → 9 ≤ b → b ≤ 11 → g a b = 0 →
      (b = row → Pattern4.valbin v a = 0) →
      Pattern4.cell015Fix (Pattern4.colParityFix (Pattern4.writeCol g row v)) a b = 0 := by
    intro a b ha1 ha8 hb9 hb11 hga hval
    rw [gf_cell_main g row v a b (by omega), writeCol_at g row v a b ha8]
    by_cases hbr : b = row
    · rw [if_pos hbr]
      exact hval hbr
    · rw [if_neg hbr]
      exact hga
  have hval9 : ∀ a : ℕ, 1 ≤ a → a ≤ 3 → (9 : ℕ) = row → Pattern4.valbin v a = 0 := by
    intro a ha1 ha3 h9r
    have h16 : v < 16 := hres.1 h9r.symm
    interval_cases a
    · exact (hvb9 v h16).1
    · exact (hvb9 v h16).2.1
    · exact (hvb9 v h16).2.2
  have hval10 : ∀ a b : ℕ, 1 ≤ a → a ≤ 2 → (b = 10 ∨ b = 11) → b = row →
      Pattern4.valbin v a = 0 := by
    intro a b ha1 ha2 hb hbr
    have h32 : v < 32 := by
      apply hres.2
      rcases hb with rfl | rfl
      · exact Or.inl hbr.symm
      · exact Or.inr hbr.symm
    interval_cases a
    · exact (hvb10 v h32).1
    · exact (hvb10 v h32).2
  refine ⟨⟨⟨fun k hk => ?_, fun k hk => ?_⟩, ?_⟩, ?_⟩
  · rw [hcolw (k + 1) (by omega)]
    by_cases hkr : k + 1 = row
    · rw [hkr, hcol_row]
      exact hvbsum v hv
    · rw [hcol_or (k + 1) hkr]
      exact hcol k hk
  · have hsplit : Pattern4.rowSum15
        (Pattern4.cell015Fix (Pattern4.colParityFix (Pattern4.writeCol g row v))) (k + 1)
        = Pattern4.rowSum14
            (Pattern4.cell015Fix (Pattern4.colParityFix (Pattern4.writeCol g row v))) (k + 1)
          + Pattern4.cell015Fix (Pattern4.colParityFix (Pattern4.writeCol g row v))
              (k + 1) 15 := by
      unfold Pattern4.rowSum15 Pattern4.rowSum14
      rw [(by decide : List.range 15 = List.range 14 ++ [14])]
      simp
    have h14 : Pattern4.rowSum14
        (Pattern4.cell015Fix (Pattern4.colParityFix (Pattern4.writeCol g row v))) (k + 1)
        = Pattern4.rowSum14 (Pattern4.writeCol g row v) (k + 1) := by
      unfold Pattern4.rowSum14
      exact congrArg List.sum (List.map_congr_left fun j hj =>
        gf_cell_main g row v (k + 1) (j + 1) (by have := List.mem_range.mp hj; omega))
    rw [hsplit, h14, gf_cell_15 g row v (k + 1) (by omega) (by omega)]
    omega
  · rw [hzcell 1 9 (by omega) (by omega) (by omega) (by omega) (by omega)
        (hval9 1 (by omega) (by omega)),
      hzcell 2 9 (by omega) (by omega) (by omega) (by omega) (by omega)
        (hval9 2 (by omega) (by omega)),
      hzcell 3 9 (by omega) (by omega) (by omega) (by omega) (by omega)
        (hval9 3 (by omega) (by omega))]
  · rw [hzcell 1 10 (by omega) (by omega) (by omega) (by omega) (by omega)
        (hval10 1 10 (by omega) (by omega) (Or.inl rfl)),
      hzcell 1 11 (by omega) (by omega) (by omega) (by omega) (by omega)
        (hval10 1 11 (by omega) (by omega) (Or.inr rfl)),
      hzcell 2 10 (by omega) (by omega) (by omega) (by omega) (by omega)
        (hval10 2 10 (by omega) (by omega) (Or.inl rfl)),
      hzcell 2 11 (by omega) (by omega) (by omega) (by omega) (by omega)
        (hval10 2 11 (by omega) (by omega) (Or.inr rfl))]

/-- C1 amended: for every single-row field other than manufacturer and
every digit value of at most two digits, setting then getting returns the
zero-padded two-digit value (equal to the original as a number), and when
the grid passed check() before and the value respects the field's reserved
region (month < 16; day, hour < 32), the grid still passes check(). -/
theorem C1_single_row_roundtrip (name : String) (row : ℕ)
    (hf : (name, row) ∈ Pattern4.plainFields) (g : Grid) (s : List Char)
    (hd : isDigitStr s = true) (hlen : s.length ≤ 2) :
    ∃ g', Pattern4.setitem g name s = Except.ok g' ∧
      Pattern4.getitem g' name = some (some (pad2 (strToNat s))) ∧
      strToNat (pad2 (strToNat s)) = strToNat s ∧
      (Pattern4.check g = true → Pattern4.reservedOK row (strToNat s) →
        Pattern4.check g' = true) := by
  have hall : ∀ p ∈ Pattern4.plainFields, Pattern4.format p.1 = some [p.2]
      ∧ p.1 ≠ "serial" ∧ p.1 ≠ "manufacturer" ∧ 1 ≤ p.2 ∧ p.2 ≤ 14 := by decide
  obtain ⟨hfr, hns, hnm, hr1, hr2⟩ := hall (name, row) hf
  have hv99 : strToNat s ≤ 99 := strToNat_le_two_digits s hd hlen
  have hset := setitem_plain g name row hfr hns hnm s hd hlen
  refine ⟨_, hset, ?_, strToNat_pad2 _ (by omega), fun hcheck hres => ?_⟩
  · rw [getitem_plain _ name row hfr hns hnm,
      getCol_after_set g row (strToNat s) hr1 hr2 (by omega)]
  · exact check_after_set g row (strToNat s) hr1 hr2 (by omega) hcheck hres

theorem C1_single_row_witness :
    ∃ g', Pattern4.setitem gW4 ("minutes") (("55").toList) = Except.ok g' ∧
      Pattern4.getitem g' ("minutes") = some (some (pad2 (strToNat (("55").toList)))) ∧
      strToNat (pad2 (strToNat (("55").toList))) = strToNat (("55").toList) ∧
      (Pattern4.check gW4 = true → Pattern4.reservedOK 14 (strToNat (("55").toList)) →
        Pattern4.check g' = true) :=
  C1_single_row_roundtrip ("minutes") 14 (by decide) gW4 (("55").toList)
    (by decide) (by decide)
